import Mathlib

set_option maxRecDepth 8000

/-!
Verification of the ChatGPT Sidebar Navigator content script and background
worker. The JavaScript is shallowly embedded: display strings are `List Char`,
DOM turns and the module-level `sidebarState` are explicit records, timer
callbacks are explicit pending-timer fields, and each content-script function
becomes a Lean function of the same name acting on that state.
-/

namespace SidebarNav

/-! ## Whitespace and text extraction

`extractQuestionText(message)` takes the raw text (`textContent?.trim()` or the
platform's `extractText`), returns `''` when falsy, else collapses whitespace
runs (`replace(/\s+/g, ' ')`) and truncates: length over 140 becomes the first
137 characters plus an ellipsis. JS `\s` (space, tab, newline, and friends) is
modelled by `isWS`; `trim` strips `isWS` characters from both ends. -/

def isWS (c : Char) : Bool :=
  c == ' ' || c == '\t' || c == '\n' || c == '\r' || c == '\x0b' || c == '\x0c'

/-- JS `String.prototype.trim`: drop whitespace from both ends. -/
def trimWS (l : List Char) : List Char :=
  ((l.dropWhile isWS).reverse.dropWhile isWS).reverse

/-- One pass of `replace(/\s+/g, ' ')`: the flag records whether the previous
character was part of a whitespace run already emitted as a single space. -/
def collapseAux : Bool → List Char → List Char
  | _, [] => []
  | prevWS, c :: rest =>
    if isWS c then
      if prevWS then collapseAux true rest
      else ' ' :: collapseAux true rest
    else c :: collapseAux false rest

def collapseWS (l : List Char) : List Char := collapseAux false l

/-- The ellipsis appended by `extractQuestionText` on truncation. -/
def ellipsisMarker : List Char := ['…']

/-- `extractQuestionText`, starting from the raw extracted text. -/
def extractQuestionText (raw : List Char) : List Char :=
  let rawText := trimWS raw
  if rawText.isEmpty then []
  else
    let sanitized := collapseWS rawText
    if 140 < sanitized.length then sanitized.take 137 ++ ellipsisMarker
    else sanitized

/-- Whether `l` may directly follow the character `a` without forming a
whitespace run of length two. -/
def okAfter (a : Char) (l : List Char) : Bool :=
  l.head?.all (fun c => !(isWS a && isWS c))

/-- No two adjacent whitespace characters. -/
def noDoubleWS : List Char → Bool
  | [] => true
  | a :: rest => okAfter a rest && noDoubleWS rest

/-- Every whitespace character is a plain space. -/
def allWSisSpace (l : List Char) : Bool := l.all (fun c => !isWS c || c == ' ')

/-- Neither the first nor the last character is whitespace. -/
def noEdgeWS (l : List Char) : Bool :=
  (l.head?.all fun c => !isWS c) && (l.getLast?.all fun c => !isWS c)

/-! ## Platform descriptor registry (`PLATFORM_CONFIGS`, `ACTIVE_PLATFORM`) -/

/-- One entry of `PLATFORM_CONFIGS`. `hostSuffix` is the pattern body: every
`hostPattern` in the source is the shape `/(^|\.)suffix$/`. -/
structure Platform where
  id : String
  hostSuffix : String
  usesVirtualScroll : Bool
deriving DecidableEq

def chatgptConfig : Platform := ⟨"chatgpt", "chatgpt.com", false⟩
def claudeConfig : Platform := ⟨"claude", "claude.ai", false⟩
def googleAiStudioConfig : Platform := ⟨"google-ai-studio", "aistudio.google.com", true⟩
def geminiConfig : Platform := ⟨"gemini", "gemini.google.com", false⟩

def PLATFORM_CONFIGS : List Platform :=
  [chatgptConfig, claudeConfig, googleAiStudioConfig, geminiConfig]

/-- `config.hostPattern.test(hostname)` for a pattern `/(^|\.)suffix$/`: the
hostname is the suffix itself, or ends with `"." ++ suffix`. -/
def hostPatternTest (p : Platform) (host : String) : Bool :=
  host == p.hostSuffix || ('.' :: p.hostSuffix.data).isSuffixOf host.data

/-- `ACTIVE_PLATFORM = PLATFORM_CONFIGS.find((config) => config.hostPattern.test(hostname))`. -/
def activePlatformFor (host : String) : Option Platform :=
  PLATFORM_CONFIGS.find? (fun c => hostPatternTest c host)

/-! ## Background worker (`SUPPORTED_HOSTS`, `isSupportedUrl`) -/

def SUPPORTED_HOSTS : List String := ["chatgpt.com", "claude.ai"]

/-- The hostname test inside `isSupportedUrl`:
`SUPPORTED_HOSTS.some(({ hostname }) => parsed.hostname.endsWith(hostname))`. -/
def isSupportedHost (host : String) : Bool :=
  SUPPORTED_HOSTS.any (fun h => h.data.isSuffixOf host.data)

/-! ## Turns, sidebar entries and the text cache

A turn is a live DOM element matched by the platform's `userMessageSelector`;
we keep the facts the script reads or writes: the value `getMessageId` yields,
the raw text the platform's extraction yields right now (empty when the content
is virtualized away), and whether the bubble currently carries the highlight
class. -/

structure Turn where
  messageId : Option String
  rawText : List Char
  highlighted : Bool
deriving DecidableEq

/-- One rendered item of the sidebar's `question-list`: a normal question link
(`"${index + 1}. ${questionText}"`), a virtual-scroll placeholder
(`"${index + 1}. (scroll to load...)"`), the empty-state paragraph, or the
"scroll through chat" hint paragraph. -/
inductive Entry where
  | normal (label : Nat) (messageId : String) (text : List Char)
  | placeholder (label : Nat) (messageId : String)
  | emptyState
  | hint
deriving DecidableEq

/-- `sidebarState.textCache : Map` from message id to last extracted text. -/
abbrev Cache := List (String × List Char)

def cacheGet (c : Cache) (k : String) : Option (List Char) :=
  (c.find? (fun e => e.1 == k)).map (fun e => e.2)

/-- `Map.set`: replace the binding if the key is present, else add it. -/
def cacheSet : Cache → String → List Char → Cache
  | [], k, v => [(k, v)]
  | (k', v') :: rest, k, v =>
    if k' == k then (k, v) :: rest else (k', v') :: cacheSet rest k v

/-- `getMessageId(message, index) ?? question-index` as used in
`refreshSidebarList`. -/
def messageIdFor (t : Turn) (i : Nat) : String :=
  t.messageId.getD ("question-" ++ toString i)

/-- The `userMessages.forEach((message, index) => ...)` body of
`refreshSidebarList`, threading the enumeration index, the text cache and the
`messagesWithText` counter. Returns the rendered entries, the final cache and
the count of entries that showed text. -/
def refreshGo (p : Platform) : Nat → Cache → List Turn → List Entry × Cache × Nat
  | _, cache, [] => ([], cache, 0)
  | i, cache, t :: rest =>
    let mid := messageIdFor t i
    let extracted := extractQuestionText t.rawText
    let step : List Char × Cache :=
      if p.usesVirtualScroll then
        if extracted.isEmpty then ((cacheGet cache mid).getD [], cache)
        else (extracted, cacheSet cache mid extracted)
      else (extracted, cache)
    let tail := refreshGo p (i + 1) step.2 rest
    if step.1.isEmpty then
      if p.usesVirtualScroll then
        (Entry.placeholder (i + 1) mid :: tail.1, tail.2.1, tail.2.2)
      else tail
    else (Entry.normal (i + 1) mid step.1 :: tail.1, tail.2.1, tail.2.2 + 1)

/-- `refreshSidebarList` on a panel that is present: clear the list, render the
empty state when there are no user messages, else render one entry per message
and, on virtual-scroll platforms with some but not all text available, append
the hint line. -/
def refreshEntries (p : Platform) (turns : List Turn) (cache : Cache) :
    List Entry × Cache :=
  if turns.isEmpty then ([Entry.emptyState], cache)
  else
    let r := refreshGo p 0 cache turns
    let withHint :=
      if p.usesVirtualScroll && decide (r.2.2 < turns.length) && decide (0 < r.2.2)
      then r.1 ++ [Entry.hint] else r.1
    (withHint, r.2.1)

/-! ## The module-level `sidebarState` and the toggle coordinator

`observerCount` / `scrollListenerCount` count what is attached to the DOM,
while `observerRef` / `scrollRef` mirror the nullable fields of
`sidebarState`; the script only detaches through those fields, so the counts
expose leaks. `settleTimers` counts pending 300 ms callbacks scheduled by
clicking a placeholder entry; `flashTimers` counts pending flash-removal
callbacks. `deactivateSidebar` stores no handle for either, so neither is
cleared there. -/

structure SessionState where
  active : Bool
  sidebarPresent : Bool
  entries : List Entry
  observerRef : Bool
  observerCount : Nat
  scrollRef : Bool
  scrollListenerCount : Nat
  debounceTimer : Bool
  textCache : Cache
  bodyActiveClass : Bool
  turns : List Turn
  settleTimers : Nat
  flashTimers : Nat
deriving DecidableEq

/-- The state of a freshly loaded page before any toggle. -/
def initialState (turns : List Turn) : SessionState :=
  { active := false, sidebarPresent := false, entries := [], observerRef := false
    observerCount := 0, scrollRef := false, scrollListenerCount := 0
    debounceTimer := false, textCache := [], bodyActiveClass := false
    turns := turns, settleTimers := 0, flashTimers := 0 }

/-- `refreshSidebarList`: early return when `sidebarState.sidebarEl` is null. -/
def doRefresh (p : Platform) (s : SessionState) : SessionState :=
  if s.sidebarPresent then
    let r := refreshEntries p s.turns s.textCache
    { s with entries := r.1, textCache := r.2 }
  else s

def highlightOn (t : Turn) : Turn := { t with highlighted := true }

def highlightOff (t : Turn) : Turn := { t with highlighted := false }

/-- `highlightExistingQuestions`: add the highlight class to every user
message's bubble. -/
def highlightExistingQuestions (s : SessionState) : SessionState :=
  { s with turns := s.turns.map highlightOn }

/-- `removeHighlights`: global sweep removing the class everywhere. -/
def removeHighlights (s : SessionState) : SessionState :=
  { s with turns := s.turns.map highlightOff }

/-- `monitorNewMessages`: guarded by `if (sidebarState.observer) return`. -/
def monitorNewMessages (s : SessionState) : SessionState :=
  if s.observerRef then s
  else { s with observerRef := true, observerCount := s.observerCount + 1 }

/-- `disconnectObserver`: `observer?.disconnect(); observer = null`. -/
def disconnectObserver (s : SessionState) : SessionState :=
  { s with observerRef := false
           observerCount := if s.observerRef then s.observerCount - 1
                            else s.observerCount }

/-- `monitorScroll`: guarded by `if (sidebarState.scrollHandler) return`. -/
def monitorScroll (s : SessionState) : SessionState :=
  if s.scrollRef then s
  else { s with scrollRef := true, scrollListenerCount := s.scrollListenerCount + 1 }

/-- `disconnectScrollHandler`: remove the capture-phase listener if one is
referenced, then clear the pending debounce timer if one is referenced. -/
def disconnectScrollHandler (s : SessionState) : SessionState :=
  let s' := if s.scrollRef then
      { s with scrollRef := false
               scrollListenerCount := s.scrollListenerCount - 1 }
    else s
  { s' with debounceTimer := false }

/-- `removeSidebar`: `sidebarEl?.remove(); sidebarEl = null`. -/
def removeSidebar (s : SessionState) : SessionState :=
  { s with sidebarPresent := false, entries := [] }

/-- `ensureSidebar`: reuse the panel if the DOM already has one, otherwise
build and append it; either way refresh the list. -/
def ensureSidebar (p : Platform) (s : SessionState) : SessionState :=
  doRefresh p { s with sidebarPresent := true }

/-- `activateSidebar` (the document body is assumed present). -/
def activateSidebar (p : Platform) (s : SessionState) : SessionState :=
  let s1 := { s with active := true }
  let s2 := ensureSidebar p s1
  let s3 := highlightExistingQuestions s2
  let s4 := monitorNewMessages s3
  let s5 := if p.usesVirtualScroll then monitorScroll s4 else s4
  { s5 with bodyActiveClass := true }

/-- `deactivateSidebar`. -/
def deactivateSidebar (s : SessionState) : SessionState :=
  let s1 := { s with active := false }
  let s2 := removeSidebar s1
  let s3 := removeHighlights s2
  let s4 := disconnectObserver s3
  let s5 := disconnectScrollHandler s4
  { s5 with textCache := [], bodyActiveClass := false }

/-- The record passed to `sendResponse`. -/
structure ToggleResponse where
  active : Bool
  unsupported : Bool
deriving DecidableEq

/-- The `chrome.runtime.onMessage` listener on a `TOGGLE_CMD` message. -/
def handleToggle (platform : Option Platform) (s : SessionState) :
    SessionState × ToggleResponse :=
  match platform with
  | none => (s, { active := false, unsupported := true })
  | some p =>
    let s' := if s.active then deactivateSidebar s else activateSidebar p s
    (s', { active := s'.active, unsupported := false })

/-- Clicking a placeholder entry: `scrollToMessage` touches no session state,
then `setTimeout(..., 300)` leaves one more settle timer pending. -/
def clickPlaceholderEntry (s : SessionState) : SessionState :=
  { s with settleTimers := s.settleTimers + 1 }

/-- A pending 300 ms settle timer fires: `refreshSidebarList()` then
`highlightExistingQuestions()`. -/
def fireSettleTimer (p : Platform) (s : SessionState) : SessionState :=
  if s.settleTimers == 0 then s
  else
    highlightExistingQuestions
      (doRefresh p { s with settleTimers := s.settleTimers - 1 })

/-- Clicking a normal question entry: `scrollToMessage` touches no session
state and `flashMessage` leaves one more 1600 ms removal timer pending. -/
def clickQuestionEntry (s : SessionState) : SessionState :=
  { s with flashTimers := s.flashTimers + 1 }

/-- A scroll event reaching the attached capture-phase handler: clear any
pending debounce timer and schedule a new one. Without an attached handler the
event does nothing to the session. -/
def scrollEventFires (s : SessionState) : SessionState :=
  if s.scrollRef then { s with debounceTimer := true } else s

/-! ## The flash pulse (`flashMessage`)

One bubble, its flash class, and the multiset of pending
`setTimeout(() => bubble.classList.remove(FLASH_CLASS), 1600)` deadlines. -/

structure FlashBubble where
  hasFlash : Bool
  removalTimers : List Nat
deriving DecidableEq

def freshBubble : FlashBubble := ⟨false, []⟩

/-- `flashMessage` at clock time `now`: add the class, schedule a removal at
`now + 1600`; no prior timer is cleared. -/
def flashMessage (now : Nat) (b : FlashBubble) : FlashBubble :=
  { hasFlash := true, removalTimers := b.removalTimers ++ [now + 1600] }

/-- Let the clock reach time `t` with no further flashes: every removal
callback whose deadline has passed fires and removes the class. -/
def elapseFlash (t : Nat) (b : FlashBubble) : FlashBubble :=
  { hasFlash := b.hasFlash && b.removalTimers.all (fun d => decide (t < d))
    removalTimers := b.removalTimers.filter (fun d => decide (t < d)) }

/-- The AI Studio turn used in the teardown scenario: content virtualized
away, so extraction yields no text. -/
def aiStudioVirtualTurn : Turn :=
  { messageId := some "turn-0", rawText := [], highlighted := false }

/-- An AI Studio turn whose content is mounted, so extraction yields text. -/
def aiStudioTextTurn : Turn :=
  { messageId := some "turn-1", rawText := ['h', 'i'], highlighted := false }

/-- Turns used in the numbering scenario: a turn with no extractable text in
front of one with text. -/
def demoTurns : List Turn :=
  [{ messageId := none, rawText := [], highlighted := false },
   { messageId := none, rawText := ['h', 'i'], highlighted := false }]

/-- One toolbar toggle trigger on a supported page. -/
def stepToggle (p : Platform) (s : SessionState) : SessionState :=
  (handleToggle (some p) s).1

/-- `n` consecutive toggle triggers. -/
def runToggles (p : Platform) : Nat → SessionState → SessionState
  | 0, s => s
  | n + 1, s => runToggles p n (stepToggle p s)

/-- Monitor ownership: the panel, the structural observer and (on
virtual-scroll platforms) the scroll listener are attached exactly when the
activation flag is on, and the text cache is empty whenever it is off. -/
def MonitorInv (p : Platform) (s : SessionState) : Prop :=
  s.sidebarPresent = s.active ∧
  s.observerRef = s.active ∧
  s.observerCount = (if s.active = true then 1 else 0) ∧
  s.scrollRef = (s.active && p.usesVirtualScroll) ∧
  s.scrollListenerCount
      = (if (s.active && p.usesVirtualScroll) = true then 1 else 0) ∧
  (s.active = true ∨ s.textCache = [])

/-- The displayed number of a sidebar entry, when it has one. -/
def entryLabel? : Entry → Option Nat
  | .normal l _ _ => some l
  | .placeholder l _ => some l
  | .emptyState => none
  | .hint => none

end SidebarNav

namespace SidebarNav

/-- C6: when no platform descriptor matches the page's hostname, a toggle
message is answered with `active: false, unsupported: true` and the handler
returns without mutating any session state. -/
theorem handleToggle_unsupported_frame (s : SessionState) :
    handleToggle none s = (s, { active := false, unsupported := true }) := rfl

/-- C9: the background worker's host test accepts exactly hostnames that end
in the string `chatgpt.com` or `claude.ai`, so it rejects
`aistudio.google.com` even though the content script's registry resolves the
google-ai-studio descriptor for it, and it accepts `evilchatgpt.com` even
though no descriptor's pattern matches that hostname. -/
theorem background_registry_mismatch :
    (∀ host : String, isSupportedHost host
        = ("chatgpt.com".data.isSuffixOf host.data
            || "claude.ai".data.isSuffixOf host.data)) ∧
    isSupportedHost "aistudio.google.com" = false ∧
    hostPatternTest googleAiStudioConfig "aistudio.google.com" = true ∧
    activePlatformFor "aistudio.google.com" = some googleAiStudioConfig ∧
    isSupportedHost "evilchatgpt.com" = true ∧
    activePlatformFor "evilchatgpt.com" = none := by
  refine ⟨fun host => ?_, by decide, by decide, by decide, by decide, by decide⟩
  simp [isSupportedHost, SUPPORTED_HOSTS]

/-- C1 (the code at the failing input): on AI Studio with one virtualized and
one mounted turn, activate, click the normal entry (a flash-removal timer
becomes pending), click the placeholder entry (a 300 ms settle timer becomes
pending) and let a scroll event schedule the debounce timer; deactivating then
cancels the debounce timer and detaches the observer and scroll listener, but
leaves the flash-removal and settle timers scheduled, and when the settle
timer later fires it re-adds the highlight class to every turn after
teardown. -/
theorem deactivation_leaves_timers_pending :
    (scrollEventFires (clickPlaceholderEntry (clickQuestionEntry
        (activateSidebar googleAiStudioConfig
          (initialState [aiStudioVirtualTurn, aiStudioTextTurn]))))).debounceTimer
        = true ∧
    (deactivateSidebar (scrollEventFires (clickPlaceholderEntry
        (clickQuestionEntry (activateSidebar googleAiStudioConfig
          (initialState [aiStudioVirtualTurn, aiStudioTextTurn]))))))
      = { active := false, sidebarPresent := false, entries := []
          observerRef := false, observerCount := 0, scrollRef := false
          scrollListenerCount := 0, debounceTimer := false, textCache := []
          bodyActiveClass := false
          turns := [aiStudioVirtualTurn, aiStudioTextTurn]
          settleTimers := 1, flashTimers := 1 } ∧
    (fireSettleTimer googleAiStudioConfig
        (deactivateSidebar (scrollEventFires (clickPlaceholderEntry
          (clickQuestionEntry (activateSidebar googleAiStudioConfig
            (initialState [aiStudioVirtualTurn, aiStudioTextTurn]))))))).turns.all
        (fun t => t.highlighted) = true := by decide

/-- C2 counterexample: flash the same bubble at clock 0 and again at clock
100; were the prior removal timer superseded, the class would stay until
clock 1700, but at clock 1650 the first pending timer has already removed
it. -/
theorem flash_last_wins_false :
    (elapseFlash 1650 (flashMessage 100 (flashMessage 0 freshBubble))).hasFlash
      = false := by decide

/-- C2 amended: `flashMessage` adds the transient class and schedules an
independent removal 1600 ms later without clearing prior timers; after two
overlapping flashes both removals stay scheduled and the class disappears
when the EARLIEST deadline passes (first flash wins on removal timing); a
single flash removes the class exactly after the 1600 ms delay. -/
theorem flashMessage_first_deadline_wins (t₁ t₂ : Nat) (h₁ : t₁ ≤ t₂)
    (h₂ : t₂ < t₁ + 1600) :
    (flashMessage t₂ (flashMessage t₁ freshBubble)).removalTimers
        = [t₁ + 1600, t₂ + 1600] ∧
    (∀ u, u < t₁ + 1600 →
      (elapseFlash u (flashMessage t₂ (flashMessage t₁ freshBubble))).hasFlash
        = true) ∧
    (∀ u, t₁ + 1600 ≤ u →
      (elapseFlash u (flashMessage t₂ (flashMessage t₁ freshBubble))).hasFlash
        = false) ∧
    (∀ t u : Nat,
      (elapseFlash u (flashMessage t freshBubble)).hasFlash
        = decide (u < t + 1600)) := by
  refine ⟨rfl, ?_, ?_, ?_⟩
  · intro u hu
    simp only [elapseFlash, flashMessage, freshBubble, List.nil_append,
      List.cons_append, List.all_cons, List.all_nil, Bool.and_true,
      Bool.true_and, Bool.and_eq_true, decide_eq_true_eq]
    omega
  · intro u hu
    simp only [elapseFlash, flashMessage, freshBubble, List.nil_append,
      List.cons_append, List.all_cons, List.all_nil, Bool.and_true,
      Bool.true_and]
    have : decide (u < t₁ + 1600) = false := by simp; omega
    simp [this]
  · intro t u
    simp [elapseFlash, flashMessage, freshBubble]

/-- Witness for the amended C2 theorem at the concrete flashes 0 and 100. -/
theorem flashMessage_first_deadline_wins_witness :
    (flashMessage 100 (flashMessage 0 freshBubble)).removalTimers
      = [0 + 1600, 100 + 1600] :=
  (flashMessage_first_deadline_wins 0 100 (by decide) (by decide)).1

/-- `List.find?` returns the first element satisfying the predicate: everything
in front of the result fails it. -/
theorem find?_first_match {α : Type} (p : α → Bool) :
    ∀ (l : List α) (a : α), l.find? p = some a →
      p a = true ∧ ∃ l₁ l₂, l = l₁ ++ a :: l₂ ∧ ∀ x ∈ l₁, p x = false := by
  intro l
  induction l with
  | nil => intro a h; simp [List.find?] at h
  | cons b rest ih =>
    intro a h
    by_cases hb : p b = true
    · rw [List.find?_cons_of_pos _ hb] at h
      cases h
      exact ⟨hb, [], rest, rfl, by simp⟩
    · have hb' : p b = false := by revert hb; cases p b <;> simp
      rw [List.find?_cons_of_neg _ (by simp [hb'])] at h
      obtain ⟨ha, l₁, l₂, hl, hfront⟩ := ih a h
      refine ⟨ha, b :: l₁, l₂, by rw [hl, List.cons_append], ?_⟩
      intro x hx
      rcases List.mem_cons.mp hx with hxb | hxl
      · exact hxb ▸ hb'
      · exact hfront x hxl

/-- C7: descriptor selection returns the first registry entry whose hostname
pattern matches, returns none exactly when no pattern matches, and resolves a
descriptor exactly for the supported hostnames. -/
theorem activePlatform_first_match (host : String) :
    (activePlatformFor host = none ↔
        ∀ c ∈ PLATFORM_CONFIGS, hostPatternTest c host = false) ∧
    (∀ c, activePlatformFor host = some c →
        c ∈ PLATFORM_CONFIGS ∧ hostPatternTest c host = true ∧
        ∃ l₁ l₂, PLATFORM_CONFIGS = l₁ ++ c :: l₂ ∧
          ∀ d ∈ l₁, hostPatternTest d host = false) ∧
    ((∃ c ∈ PLATFORM_CONFIGS, hostPatternTest c host = true) ↔
        (activePlatformFor host).isSome = true) := by
  refine ⟨?_, ?_, ?_⟩
  · rw [activePlatformFor, List.find?_eq_none]
    constructor
    · intro h c hc
      have := h c hc
      revert this
      cases hostPatternTest c host <;> simp
    · intro h c hc
      simp [h c hc]
  · intro c h
    have h2 := find?_first_match _ _ _ h
    exact ⟨List.mem_of_find?_eq_some h, h2.1, h2.2⟩
  · rw [activePlatformFor]
    constructor
    · intro ⟨c, hc, hp⟩
      exact List.find?_isSome.mpr ⟨c, hc, hp⟩
    · intro h
      exact List.find?_isSome.mp h

/-! ### Whitespace hygiene of `extractQuestionText` -/

theorem head?_dropWhile_notWS (l : List Char) :
    ((l.dropWhile isWS).head?).all (fun c => !isWS c) = true := by
  induction l with
  | nil => rfl
  | cons c rest ih =>
    rw [List.dropWhile_cons]
    by_cases h : isWS c = true
    · rw [if_pos h]; exact ih
    · have h' : isWS c = false := by revert h; cases isWS c <;> simp
      rw [if_neg (by simp [h'])]
      simp [h']

theorem getLast?_dropWhile_notWS :
    ∀ l : List Char, l.dropWhile isWS ≠ [] →
      (l.dropWhile isWS).getLast? = l.getLast? := by
  intro l
  induction l with
  | nil => intro h; simp at h
  | cons c rest ih =>
    intro h
    rw [List.dropWhile_cons] at h ⊢
    by_cases hc : isWS c = true
    · rw [if_pos hc] at h ⊢
      have hrest : rest ≠ [] := by
        intro he; subst he; simp [List.dropWhile] at h
      rw [ih h]
      cases rest with
      | nil => exact absurd rfl hrest
      | cons d rest' => rw [List.getLast?_cons_cons]
    · rw [if_neg hc]

theorem trimWS_head_notWS (l : List Char) :
    ((trimWS l).head?).all (fun c => !isWS c) = true := by
  rw [trimWS, List.head?_reverse]
  by_cases h : (l.dropWhile isWS).reverse.dropWhile isWS = []
  · rw [h]; rfl
  · rw [getLast?_dropWhile_notWS _ h, List.getLast?_reverse]
    exact head?_dropWhile_notWS l

theorem trimWS_getLast_notWS (l : List Char) :
    ((trimWS l).getLast?).all (fun c => !isWS c) = true := by
  rw [trimWS, List.getLast?_reverse]
  exact head?_dropWhile_notWS _

theorem okAfter_of_head_notWS (a : Char) (l : List Char)
    (h : (l.head?).all (fun c => !isWS c) = true) : okAfter a l = true := by
  rw [okAfter]
  cases l with
  | nil => rfl
  | cons d l' =>
    simp only [List.head?_cons, Option.all_some] at h ⊢
    simp at h
    simp [h]

theorem okAfter_of_notWS (a : Char) (l : List Char) (h : isWS a = false) :
    okAfter a l = true := by
  rw [okAfter]
  cases l with
  | nil => rfl
  | cons d l' => simp [h]

theorem collapseAux_allWSisSpace : ∀ (l : List Char) (b : Bool),
    allWSisSpace (collapseAux b l) = true := by
  intro l
  induction l with
  | nil => intro b; rfl
  | cons c rest ih =>
    intro b
    by_cases hc : isWS c = true
    · cases b with
      | true => simpa [collapseAux, hc] using ih true
      | false =>
        have := ih true
        simp only [collapseAux, hc, if_true]
        rw [if_neg (by simp)]
        simpa [allWSisSpace] using this
    · have hc' : isWS c = false := by revert hc; cases isWS c <;> simp
      have := ih false
      simp only [collapseAux, hc']
      rw [if_neg (by simp)]
      simpa [allWSisSpace, hc'] using this

theorem collapseAux_head_notWS : ∀ l : List Char,
    ((collapseAux true l).head?).all (fun c => !isWS c) = true := by
  intro l
  induction l with
  | nil => rfl
  | cons c rest ih =>
    by_cases hc : isWS c = true
    · simpa [collapseAux, hc] using ih
    · have hc' : isWS c = false := by revert hc; cases isWS c <;> simp
      simp [collapseAux, hc']

theorem collapseAux_false_head_notWS (l : List Char)
    (h : (l.head?).all (fun c => !isWS c) = true) :
    ((collapseAux false l).head?).all (fun c => !isWS c) = true := by
  cases l with
  | nil => rfl
  | cons c rest =>
    simp only [List.head?_cons, Option.all_some] at h
    simp at h
    simp [collapseAux, h]

theorem noDoubleWS_cons (a : Char) (l : List Char) :
    noDoubleWS (a :: l) = (okAfter a l && noDoubleWS l) := rfl

theorem collapseAux_noDoubleWS : ∀ (l : List Char) (b : Bool),
    noDoubleWS (collapseAux b l) = true := by
  intro l
  induction l with
  | nil => intro b; rfl
  | cons c rest ih =>
    intro b
    by_cases hc : isWS c = true
    · cases b with
      | true => simpa [collapseAux, hc] using ih true
      | false =>
        simp only [collapseAux, hc, if_true]
        rw [if_neg (by simp), noDoubleWS_cons, Bool.and_eq_true]
        exact ⟨okAfter_of_head_notWS _ _ (collapseAux_head_notWS rest), ih true⟩
    · have hc' : isWS c = false := by revert hc; cases isWS c <;> simp
      simp only [collapseAux, hc']
      rw [if_neg (by simp), noDoubleWS_cons, Bool.and_eq_true]
      exact ⟨okAfter_of_notWS _ _ hc', ih false⟩

theorem getLast?_cons_of_getLast? (x : Char) (tl : List Char) (c : Char)
    (h : tl.getLast? = some c) : (x :: tl).getLast? = some c := by
  cases tl with
  | nil => simp at h
  | cons y tl' => rwa [List.getLast?_cons_cons]

theorem collapseAux_getLast_keep : ∀ (l : List Char) (b : Bool) (c : Char),
    l.getLast? = some c → isWS c = false →
    (collapseAux b l).getLast? = some c := by
  intro l
  induction l with
  | nil => intro b c h; simp at h
  | cons d rest ih =>
    intro b c h hc
    cases rest with
    | nil =>
      simp only [List.getLast?_singleton, Option.some.injEq] at h
      subst h
      cases b <;> simp [collapseAux, hc]
    | cons e rest' =>
      have h' : (e :: rest').getLast? = some c := by
        rwa [List.getLast?_cons_cons] at h
      by_cases hd : isWS d = true
      · cases b with
        | true => simpa [collapseAux, hd] using ih true c h' hc
        | false =>
          simp only [collapseAux, hd, if_true]
          rw [if_neg (by simp)]
          exact getLast?_cons_of_getLast? _ _ _ (ih true c h' hc)
      · have hd' : isWS d = false := by revert hd; cases isWS d <;> simp
        simp only [collapseAux, hd']
        rw [if_neg (by simp)]
        exact getLast?_cons_of_getLast? _ _ _ (ih false c h' hc)

theorem collapseWS_trim_edge (raw : List Char) :
    noEdgeWS (collapseWS (trimWS raw)) = true := by
  rw [noEdgeWS, collapseWS]
  rw [collapseAux_false_head_notWS (trimWS raw) (trimWS_head_notWS raw),
    Bool.true_and]
  cases hl : (trimWS raw).getLast? with
  | none =>
    have hnil : trimWS raw = [] := List.getLast?_eq_none_iff.mp hl
    rw [hnil]; rfl
  | some c =>
    have hc : isWS c = false := by
      have h := trimWS_getLast_notWS raw
      rw [hl] at h
      simpa using h
    rw [collapseAux_getLast_keep _ false c hl hc]
    simpa using hc

theorem okAfter_take (a : Char) (l : List Char) (n : Nat)
    (h : okAfter a l = true) : okAfter a (l.take n) = true := by
  cases n with
  | zero => rfl
  | succ m => cases l with
    | nil => rfl
    | cons b rest => exact h

theorem noDoubleWS_take : ∀ (l : List Char) (n : Nat),
    noDoubleWS l = true → noDoubleWS (l.take n) = true := by
  intro l
  induction l with
  | nil => intro n h; simp [List.take_nil]; rfl
  | cons a rest ih =>
    intro n h
    cases n with
    | zero => rfl
    | succ m =>
      rw [List.take_succ_cons, noDoubleWS_cons, Bool.and_eq_true]
      rw [noDoubleWS_cons, Bool.and_eq_true] at h
      exact ⟨okAfter_take a rest m h.1, ih m h.2⟩

theorem okAfter_append_single (a c : Char) (l : List Char) (hc : isWS c = false)
    (h : okAfter a l = true) : okAfter a (l ++ [c]) = true := by
  cases l with
  | nil => simp [okAfter, hc]
  | cons b rest => exact h

theorem noDoubleWS_append_single : ∀ (l : List Char) (c : Char),
    noDoubleWS l = true → isWS c = false → noDoubleWS (l ++ [c]) = true := by
  intro l
  induction l with
  | nil =>
    intro c _ hc
    rw [List.nil_append, noDoubleWS_cons]
    simp [okAfter]; rfl
  | cons a rest ih =>
    intro c h hc
    rw [List.cons_append, noDoubleWS_cons, Bool.and_eq_true]
    rw [noDoubleWS_cons, Bool.and_eq_true] at h
    exact ⟨okAfter_append_single a c rest hc h.1, ih c h.2 hc⟩

theorem allWSisSpace_take (l : List Char) (n : Nat)
    (h : allWSisSpace l = true) : allWSisSpace (l.take n) = true := by
  rw [allWSisSpace, List.all_eq_true] at h ⊢
  exact fun c hc => h c (List.take_subset n l hc)

theorem allWSisSpace_append_single (l : List Char) (c : Char)
    (h : allWSisSpace l = true) (hc : isWS c = false) :
    allWSisSpace (l ++ [c]) = true := by
  rw [allWSisSpace, List.all_eq_true] at h ⊢
  intro x hx
  rcases List.mem_append.mp hx with h1 | h2
  · exact h x h1
  · have : x = c := by simpa using h2
    subst this
    simp [hc]

theorem head?_take_succ (l : List Char) (n : Nat) :
    (l.take (n + 1)).head? = l.head? := by
  cases l <;> rfl

/-- C4: the display text `extractQuestionText` returns always has its
whitespace collapsed to single plain spaces and carries no leading or trailing
whitespace; when no usable raw text was found (nothing but whitespace), the
result is the empty string. -/
theorem extractQuestionText_whitespace (raw : List Char) :
    allWSisSpace (extractQuestionText raw) = true ∧
    noDoubleWS (extractQuestionText raw) = true ∧
    noEdgeWS (extractQuestionText raw) = true ∧
    (trimWS raw = [] → extractQuestionText raw = []) := by
  have hmk : isWS '…' = false := by decide
  rw [extractQuestionText]
  by_cases ht : (trimWS raw).isEmpty = true
  · rw [if_pos ht]
    exact ⟨rfl, rfl, rfl, fun _ => rfl⟩
  · rw [if_neg ht]
    have hall := collapseAux_allWSisSpace (trimWS raw) false
    have hnd := collapseAux_noDoubleWS (trimWS raw) false
    have hedge := collapseWS_trim_edge raw
    by_cases hlen : 140 < (collapseWS (trimWS raw)).length
    · rw [if_pos hlen]
      refine ⟨?_, ?_, ?_, ?_⟩
      · exact allWSisSpace_append_single _ _
          (allWSisSpace_take _ _ hall) hmk
      · exact noDoubleWS_append_single _ _
          (noDoubleWS_take _ _ hnd) hmk
      · rw [noEdgeWS, Bool.and_eq_true]
        constructor
        · rw [List.head?_append]
          have h137 : (137 : Nat) = 136 + 1 := rfl
          rw [h137, head?_take_succ]
          rw [noEdgeWS, Bool.and_eq_true] at hedge
          have hh := hedge.1
          rw [collapseWS] at hh
          cases hx : (collapseAux false (trimWS raw)).head? with
          | none =>
            exfalso
            have : collapseAux false (trimWS raw) = [] := by
              cases hy : collapseAux false (trimWS raw) with
              | nil => rfl
              | cons z zs => rw [hy] at hx; simp at hx
            rw [collapseWS, this] at hlen
            simp at hlen
          | some d =>
            rw [collapseWS, hx]
            rw [hx] at hh
            simpa using hh
        · rw [ellipsisMarker, List.getLast?_concat]
          simpa using hmk
      · intro h
        exact absurd (List.isEmpty_iff.mpr h) ht
    · rw [if_neg hlen]
      refine ⟨hall, hnd, hedge, ?_⟩
      intro h
      exact absurd (List.isEmpty_iff.mpr h) ht

/-- Witness for C4 at raw text that is all whitespace: extraction returns the
empty string. -/
theorem extractQuestionText_whitespace_witness :
    trimWS [' ', '\n'] = [] ∧ extractQuestionText [' ', '\n'] = [] :=
  ⟨by decide, (extractQuestionText_whitespace [' ', '\n']).2.2.2 (by decide)⟩

/-- C3: the display text never exceeds the 140-character limit plus the
ellipsis marker; when the normalized text is longer than 140 characters the
result is its 137-character front with the marker appended, otherwise the
normalized text is returned whole, with no marker appended. -/
theorem extractQuestionText_length (raw : List Char) :
    (extractQuestionText raw).length ≤ 140 + ellipsisMarker.length ∧
    (140 < (collapseWS (trimWS raw)).length →
      extractQuestionText raw
          = (collapseWS (trimWS raw)).take 137 ++ ellipsisMarker ∧
      (extractQuestionText raw).length = 137 + ellipsisMarker.length) ∧
    ((collapseWS (trimWS raw)).length ≤ 140 →
      extractQuestionText raw = collapseWS (trimWS raw)) := by
  rw [extractQuestionText]
  by_cases ht : (trimWS raw).isEmpty = true
  · have ht' : trimWS raw = [] := List.isEmpty_iff.mp ht
    rw [if_pos ht]
    refine ⟨by simp, ?_, ?_⟩
    · intro h
      rw [ht'] at h
      simp [collapseWS, collapseAux] at h
    · intro _
      rw [ht']
      rfl
  · rw [if_neg ht]
    by_cases hlen : 140 < (collapseWS (trimWS raw)).length
    · rw [if_pos hlen]
      have hlt : ((collapseWS (trimWS raw)).take 137 ++ ellipsisMarker).length
          = 137 + ellipsisMarker.length := by
        rw [List.length_append, List.length_take, Nat.min_eq_left (by omega)]
      refine ⟨by omega, fun _ => ⟨rfl, hlt⟩, fun h => absurd hlen (by omega)⟩
    · rw [if_neg hlen]
      exact ⟨by omega, fun h => absurd h hlen, fun _ => rfl⟩

/-- Witness for C3 at a 150-character input: the result is truncated to the
137-character front plus the marker. -/
theorem extractQuestionText_length_witness :
    140 < (collapseWS (trimWS (List.replicate 150 'a'))).length ∧
    extractQuestionText (List.replicate 150 'a')
        = (collapseWS (trimWS (List.replicate 150 'a'))).take 137
            ++ ellipsisMarker :=
  ⟨by decide, ((extractQuestionText_length (List.replicate 150 'a')).2.1
      (by decide)).1⟩
/-! ### Activation and deactivation, field by field -/

theorem activate_proj (p : Platform) (s : SessionState) :
    (activateSidebar p s).active = true ∧
    (activateSidebar p s).sidebarPresent = true ∧
    (activateSidebar p s).observerRef = true ∧
    (activateSidebar p s).observerCount
        = s.observerCount + (if s.observerRef = true then 0 else 1) ∧
    (activateSidebar p s).scrollRef = (s.scrollRef || p.usesVirtualScroll) ∧
    (activateSidebar p s).scrollListenerCount
        = s.scrollListenerCount
            + (if s.scrollRef = false ∧ p.usesVirtualScroll = true then 1
               else 0) ∧
    (activateSidebar p s).turns = s.turns.map highlightOn ∧
    (activateSidebar p s).bodyActiveClass = true ∧
    (activateSidebar p s).settleTimers = s.settleTimers ∧
    (activateSidebar p s).flashTimers = s.flashTimers ∧
    (activateSidebar p s).debounceTimer = s.debounceTimer := by
  simp only [activateSidebar, ensureSidebar, doRefresh, highlightExistingQuestions,
    monitorNewMessages, monitorScroll]
  by_cases hv : p.usesVirtualScroll = true <;>
    by_cases ho : s.observerRef = true <;>
      by_cases hs : s.scrollRef = true <;>
        simp [hv, ho, hs]

theorem deactivate_eq (s : SessionState) :
    deactivateSidebar s =
      { active := false, sidebarPresent := false, entries := []
        observerRef := false
        observerCount := if s.observerRef = true then s.observerCount - 1
                         else s.observerCount
        scrollRef := false
        scrollListenerCount := if s.scrollRef = true then s.scrollListenerCount - 1
                               else s.scrollListenerCount
        debounceTimer := false, textCache := [], bodyActiveClass := false
        turns := s.turns.map highlightOff
        settleTimers := s.settleTimers, flashTimers := s.flashTimers } := by
  simp only [deactivateSidebar, removeSidebar, removeHighlights,
    disconnectObserver, disconnectScrollHandler]
  by_cases hs : s.scrollRef = true <;> simp [hs]

theorem map_highlightOff_all (l : List Turn) :
    (l.map highlightOff).all (fun t => !t.highlighted) = true := by
  induction l with
  | nil => rfl
  | cons t rest ih => simp [highlightOff, ih]

/-- C5: toggling twice from the rest state returns an equivalent inactive
state: no panel, no entries, no highlight class anywhere, no observer or
scroll listener attached, an empty text cache, no pending timers, and the
document-root active class removed. -/
theorem toggle_twice_from_rest (p : Platform) (turns : List Turn) :
    let s₂ := (handleToggle (some p)
        ((handleToggle (some p) (initialState turns)).1)).1
    s₂.active = false ∧ s₂.sidebarPresent = false ∧ s₂.entries = [] ∧
    s₂.turns.all (fun t => !t.highlighted) = true ∧
    s₂.observerRef = false ∧ s₂.observerCount = 0 ∧
    s₂.scrollRef = false ∧ s₂.scrollListenerCount = 0 ∧
    s₂.debounceTimer = false ∧ s₂.textCache = [] ∧
    s₂.bodyActiveClass = false ∧ s₂.settleTimers = 0 ∧ s₂.flashTimers = 0 := by
  intro s₂
  obtain ⟨hact, -, hobsRef, hobsCnt, hscrRef, hscrCnt, hturns, -, hsettle,
    hflash, -⟩ := activate_proj p (initialState turns)
  have hstep1 : (handleToggle (some p) (initialState turns)).1
      = activateSidebar p (initialState turns) := by
    simp [handleToggle, initialState]
  have hstep2 : s₂ = deactivateSidebar (activateSidebar p (initialState turns)) := by
    show (handleToggle (some p) _).1 = _
    rw [hstep1]
    simp [handleToggle, hact]
  rw [hstep2, deactivate_eq]
  refine ⟨rfl, rfl, rfl, ?_, rfl, ?_, rfl, ?_, rfl, rfl, rfl, ?_, ?_⟩
  · simp only [hturns, List.map_map]
    have : (initialState turns).turns.map (highlightOff ∘ highlightOn)
        = (initialState turns).turns.map highlightOff := by
      apply List.map_congr_left
      intro t _
      rfl
    rw [this]
    exact map_highlightOff_all _
  · rw [hobsRef, hobsCnt]
    simp [initialState]
  · rw [hscrRef, hscrCnt]
    cases hv : p.usesVirtualScroll <;> simp [initialState, hv]
  · rw [hsettle]; rfl
  · rw [hflash]; rfl

theorem monitorInv_initial (p : Platform) (turns : List Turn) :
    MonitorInv p (initialState turns) :=
  ⟨rfl, rfl, rfl, rfl, rfl, Or.inr rfl⟩

theorem monitorInv_step (p : Platform) (s : SessionState)
    (h : MonitorInv p s) : MonitorInv p (stepToggle p s) := by
  obtain ⟨h1, h2, h3, h4, h5, h6⟩ := h
  rw [stepToggle]
  cases ha : s.active with
  | false =>
    have hh : (handleToggle (some p) s).1 = activateSidebar p s := by
      simp [handleToggle, ha]
    rw [hh]
    obtain ⟨a1, a2, a3, a4, a5, a6, -, -, -, -, -⟩ := activate_proj p s
    refine ⟨by rw [a2, a1], by rw [a3, a1], ?_, ?_, ?_, Or.inl a1⟩
    · rw [a4, a1, h3, ha, h2, ha]
      simp
    · rw [a5, a1, h4, ha]
      simp
    · rw [a6, a1, h5, h4, ha]
      cases hv : p.usesVirtualScroll <;> simp [hv]
  | true =>
    have hh : (handleToggle (some p) s).1 = deactivateSidebar s := by
      simp [handleToggle, ha]
    rw [hh, deactivate_eq]
    refine ⟨rfl, rfl, ?_, by simp, ?_, Or.inr rfl⟩
    · simp [h2, ha, h3]
    · cases hv : p.usesVirtualScroll <;> simp [h4, h5, ha, hv]

theorem monitorInv_run (p : Platform) : ∀ (n : Nat) (s : SessionState),
    MonitorInv p s → MonitorInv p (runToggles p n s) := by
  intro n
  induction n with
  | zero => intro s h; exact h
  | succ m ih => intro s h; exact ih _ (monitorInv_step p s h)

/-- C8: across any sequence of toggle triggers from rest, the panel, the
structural observer and (only on virtual-scroll platforms) the scroll listener
are attached exactly when the activation flag is on — so at most one of each —
and the text cache is empty whenever the flag is off; activating on top of an
already active session attaches no second observer, listener or panel; and
deactivation always drops the panel, both monitor references and the cache. -/
theorem toggle_monitor_ownership (p : Platform) (turns : List Turn) (n : Nat) :
    MonitorInv p (runToggles p n (initialState turns)) ∧
    (∀ s : SessionState,
      (activateSidebar p (activateSidebar p s)).observerCount
          = (activateSidebar p s).observerCount ∧
      (activateSidebar p (activateSidebar p s)).scrollListenerCount
          = (activateSidebar p s).scrollListenerCount ∧
      (activateSidebar p (activateSidebar p s)).sidebarPresent
          = (activateSidebar p s).sidebarPresent) ∧
    (∀ s : SessionState,
      (deactivateSidebar s).sidebarPresent = false ∧
      (deactivateSidebar s).observerRef = false ∧
      (deactivateSidebar s).scrollRef = false ∧
      (deactivateSidebar s).textCache = []) := by
  refine ⟨monitorInv_run p n _ (monitorInv_initial p turns), ?_, ?_⟩
  · intro s
    obtain ⟨-, o2, o3, -, o5, -, -, -, -, -, -⟩ := activate_proj p s
    obtain ⟨-, b2, -, b4, -, b6, -, -, -, -, -⟩ :=
      activate_proj p (activateSidebar p s)
    refine ⟨?_, ?_, ?_⟩
    · rw [b4, o3]
      simp
    · rw [b6, o5]
      cases hv : p.usesVirtualScroll <;> simp [hv]
    · rw [b2, o2]
  · intro s
    rw [deactivate_eq]
    exact ⟨rfl, rfl, rfl, rfl⟩

/-! ### Sidebar numbering (`refreshSidebarList` labels) -/

theorem refreshGo_labels (p : Platform) :
    ∀ (turns : List Turn) (i : Nat) (cache : Cache),
      ((refreshGo p i cache turns).1.filterMap entryLabel?).Sublist
        (List.range' (i + 1) turns.length) := by
  intro turns
  induction turns with
  | nil => intro i cache; simp [refreshGo]
  | cons t rest ih =>
    intro i cache
    rw [List.length_cons, List.range'_succ]
    simp only [refreshGo]
    repeat' split
    all_goals simp only [List.filterMap_cons, entryLabel?]
    all_goals
      first
        | exact List.Sublist.cons₂ _ (ih (i + 1) _)
        | exact List.Sublist.cons _ (ih (i + 1) _)

theorem refreshGo_nonvirtual (p : Platform) (hp : p.usesVirtualScroll = false) :
    ∀ (turns : List Turn) (i : Nat) (cache : Cache),
      refreshGo p i cache turns
        = ((List.enumFrom i turns).filterMap (fun x =>
              if (extractQuestionText x.2.rawText).isEmpty = true then none
              else some (Entry.normal (x.1 + 1) (messageIdFor x.2 x.1)
                  (extractQuestionText x.2.rawText))),
           cache,
           ((List.enumFrom i turns).filter
              (fun x => !(extractQuestionText x.2.rawText).isEmpty)).length) := by
  intro turns
  induction turns with
  | nil => intro i cache; simp [refreshGo]
  | cons t rest ih =>
    intro i cache
    simp only [refreshGo, hp, List.enumFrom_cons, List.filterMap_cons,
      List.filter_cons]
    by_cases he : (extractQuestionText t.rawText).isEmpty = true <;>
      simp [he, ih (i + 1) cache]

/-- C10: every rendered sidebar entry is numbered by the turn's position in
the full document-order listing — the label sequence is a sublist of
`[1, ..., n]`, with gaps exactly where turns were skipped — and on a
non-virtualized platform the rendered list keeps each turn's `index + 1` while
dropping textless turns without renumbering, so the two demo turns (an empty
one followed by one reading "hi") render as the single entry numbered 2. -/
theorem entry_labels_document_position (p : Platform) (turns : List Turn)
    (cache : Cache) :
    ((refreshGo p 0 cache turns).1.filterMap entryLabel?).Sublist
        (List.range' 1 turns.length) ∧
    (p.usesVirtualScroll = false →
      (refreshEntries p turns cache).1
        = if turns.isEmpty = true then [Entry.emptyState]
          else (List.enumFrom 0 turns).filterMap (fun x =>
              if (extractQuestionText x.2.rawText).isEmpty = true then none
              else some (Entry.normal (x.1 + 1) (messageIdFor x.2 x.1)
                  (extractQuestionText x.2.rawText)))) ∧
    (refreshEntries chatgptConfig demoTurns []).1
        = [Entry.normal 2 "question-1" ['h', 'i']] := by
  refine ⟨refreshGo_labels p turns 0 cache, ?_, by decide⟩
  intro hp
  rw [refreshEntries]
  by_cases hemp : turns.isEmpty = true
  · rw [if_pos hemp, if_pos hemp]
  · rw [if_neg hemp, if_neg hemp]
    rw [refreshGo_nonvirtual p hp turns 0 cache]
    simp [hp]

end SidebarNav
